import Mathlib

/-!
# Verification of the RisingWave core coordination subsystem excerpt

A shallow embedding of the repository's six source files:

* `src/batch/src/task/consistent_hash_shuffle_channel.rs` — consistent-hash
  exchange channel (sender / receiver);
* `src/meta/src/barrier/recovery.rs` — recovery coordinator epoch handling and
  dirty-fragment cleanup;
* `src/meta/src/stream/scheduler.rs` — fragment scheduler and co-location;
* `src/connector/src/parser/debezium/simd_json_parser.rs` — Debezium CDC parser;
* `src/expr/src/expr/expr_vnode.rs` — vnode expression;
* `rust/server/src/error.rs` — error-code to grpc-code mapping.

External library code (`risingwave_common`, `simd_json`, …) that the excerpt
calls but that is not part of the excerpt is modelled from the specification;
every such definition carries a doc comment starting `Modelled from the spec:`.
-/

namespace RisingWave

/-! ## Data model: rows, chunks, visibility

A `DataChunk` is a columnar batch with an optional visibility bitmap
(`risingwave_common::array::DataChunk`, used by the shuffle channel and the
vnode expression).  We abstract the columnar storage as a list of rows; a row
is a list of integer datums.  The visibility bitmap, when present, has one
bit per row position. -/

abbrev Row := List Int

structure DataChunk where
  rows : List Row
  visibility : Option (List Bool)
deriving DecidableEq, Repr

/-- The rows of a chunk that are visible under its visibility bitmap
(`DataChunk::rows` iterates only visible positions). -/
def DataChunk.visibleRows (c : DataChunk) : List Row :=
  match c.visibility with
  | none => c.rows
  | some vis => (c.rows.zip vis).filterMap fun rb => if rb.2 then some rb.1 else none

/-- `DataChunk::cardinality`: the number of visible rows. -/
def DataChunk.cardinality (c : DataChunk) : Nat :=
  c.visibleRows.length

/-- `DataChunk::with_visibility`: same columnar data, new visibility bitmap. -/
def DataChunk.with_visibility (c : DataChunk) (vis : List Bool) : DataChunk :=
  { rows := c.rows, visibility := some vis }

/-- Whether position `i` of the chunk is visible. -/
def DataChunk.visAt (c : DataChunk) (i : Nat) : Bool :=
  match c.visibility with
  | none => decide (i < c.rows.length)
  | some vis => vis.getD i false

/-! ## Virtual nodes and hashing

`VirtualNode`, `Crc32FastBuilder` and `DataChunk::get_hash_values` live in
`risingwave_common` and are not part of the excerpt. -/

/-- Modelled from the spec: `VNODE_COUNT` is a fixed power of two (e.g. 256). -/
def VNODE_COUNT : Nat := 256

/-- Modelled from the spec: `HashCode::to_vnode` maps a hash value into
`[0, VNODE_COUNT)`; `VirtualNode::to_index` / `to_scalar` expose it as an
index / scalar.  We take the hash value modulo `VNODE_COUNT`. -/
def toVnode (h : Nat) : Nat := h % VNODE_COUNT

/-- `VirtualNode::to_scalar`: the vnode as an `i16` scalar.  Since a vnode is
below `VNODE_COUNT = 256` the cast never overflows, so plain `Int.ofNat` is
exact. -/
def toScalar (v : Nat) : Int := Int.ofNat v

/-- Projection of a row onto the key columns (`column_idxes` of
`DataChunk::get_hash_values` / `Row::project`). -/
def projectKey (key : List Nat) (r : Row) : Row :=
  key.map fun i => r.getD i 0

/-- Modelled from the spec: `DataChunk::get_hash_values(keys, Crc32FastBuilder)`
hashes, for every row position of the chunk, the projection of that row onto
the key columns with a fixed CRC32-family hash.  The concrete hash function is
a parameter `hash`; all definitions below use the same one, as the spec
requires ("all nodes in the cluster agree on the hash"). -/
def get_hash_values (hash : Row → Nat) (key : List Nat) (chunk : DataChunk) : List Nat :=
  chunk.rows.map fun r => hash (projectKey key r)

/-! ## Consistent-hash exchange channel
(`src/batch/src/task/consistent_hash_shuffle_channel.rs`) -/

/-- `risingwave_pb::batch_plan::exchange_info::ConsistentHashInfo`: the key
column indices and the vnode → output map carried in the plan. -/
structure ConsistentHashInfo where
  key : List Nat
  vmap : List Nat
deriving DecidableEq, Repr

/-- `output_count` as computed by `new_consistent_shuffle_channel`:
`vmap.iter().copied().sorted().dedup().count()`, i.e. the number of distinct
values in `vmap`.  `List.dedup` removes every duplicate, so its length equals
the sorted-then-dedup count of the source. -/
def output_count (info : ConsistentHashInfo) : Nat :=
  info.vmap.dedup.length

/-- `generate_hash_values`: per row position,
`vmap[hash(key cols).to_vnode().to_index()]`.  Rust's `vmap[idx]` with the
vnode index is modelled with `getD`; theorems that depend on the looked-up
value carry the bound `toVnode _ < vmap.length` explicitly where it matters. -/
def generate_hash_values (hash : Row → Nat) (chunk : DataChunk)
    (info : ConsistentHashInfo) : List Nat :=
  (get_hash_values hash info.key chunk).map fun h => info.vmap.getD (toVnode h) 0

/-- `generate_new_data_chunks`: one derived chunk per `sink_id` in
`0..output_count`; its visibility bit at row `i` is `hash_values[i] == sink_id`,
and-ed (`bitand`) with the input's visibility bitmap when one is present.
The source builds the per-sink bitmaps by iterating `hash_values` and pushing
one bit per sink; mapping per sink over `hash_values` builds the same bitmaps. -/
def generate_new_data_chunks (chunk : DataChunk) (output_count : Nat)
    (hash_values : List Nat) : List DataChunk :=
  (List.range output_count).map fun sink_id =>
    let vis_map := hash_values.map fun h => h == sink_id
    let vis_map :=
      match chunk.visibility with
      | some visibility => List.zipWith (· && ·) vis_map visibility
      | none => vis_map
    chunk.with_visibility vis_map

/-- The visibility bitmap `generate_new_data_chunks` computes for one
`sink_id`: one bit per row position, true when the row's mapped value equals
the sink id, and-ed with the input's visibility when present (the same
expression as in `generate_new_data_chunks`, factored out for reasoning). -/
def sinkVis (chunk : DataChunk) (hash_values : List Nat) (sink_id : Nat) : List Bool :=
  let vis_map := hash_values.map fun h => h == sink_id
  match chunk.visibility with
  | some visibility => List.zipWith (· && ·) vis_map visibility
  | none => vis_map

/-- The rows of `rows` selected by the bitmap `vis` (the `some` arm of
`DataChunk.visibleRows`). -/
def filterVis (rows : List Row) (vis : List Bool) : List Row :=
  (rows.zip vis).filterMap fun rb => if rb.2 then some rb.1 else none

/-- The multiset of visible rows across a list of chunks. -/
def multisetVisible (l : List DataChunk) : Multiset Row :=
  (l.map fun c => (c.visibleRows : Multiset Row)).sum

/-- The observable effect of `ConsistentHashShuffleSender::send_chunk`: the
list of `(sink_id, chunk)` pairs pushed to `self.senders[sink_id]`, namely the
derived chunks enumerated by position, keeping only those with
`cardinality() > 0`. -/
def send_chunk_sends (hash : Row → Nat) (info : ConsistentHashInfo)
    (chunk : DataChunk) : List (Nat × DataChunk) :=
  let hash_values := generate_hash_values hash chunk info
  let new_data_chunks := generate_new_data_chunks chunk (output_count info) hash_values
  new_data_chunks.enum.filter fun p => 0 < p.2.cardinality

/-- `ConsistentHashShuffleReceiver::recv`, one step.  The argument is what the
underlying mpsc receiver yields: `some msg` for a delivered message (where
`msg = none` is the `EndOfStream` marker sent by `send_done` and
`msg = some c` a data chunk), and `none` when the channel is closed (all
senders dropped) and the queue is drained.  The error is
`InternalError("broken hash_shuffle_channel")`. -/
def ConsistentHashShuffleReceiver.recv (received : Option (Option DataChunk)) :
    Except String (Option DataChunk) :=
  match received with
  | some data_chunk => .ok data_chunk
  | none => .error "broken hash_shuffle_channel"

/-- What the receiver's `i`-th call to `recv` observes when the senders pushed
exactly `msgs` into its queue before all of them dropped: the `i`-th queued
message, or closure once the queue is exhausted. -/
def recvAt (msgs : List (Option DataChunk)) (i : Nat) :
    Except String (Option DataChunk) :=
  ConsistentHashShuffleReceiver.recv (msgs.get? i)

/-! ## Recovery epochs (`src/meta/src/barrier/recovery.rs`) -/

/-- The epoch pair carried by the `CommandContext` of the recovery init
barrier (`prev_epoch`, `curr_epoch` arguments of `CommandContext::new`). -/
structure RecoveryBarrier where
  prev_epoch : Nat
  curr_epoch : Nat
deriving DecidableEq, Repr

/-- The epoch bookkeeping of `GlobalBarrierManager::recovery`, with
`Epoch::next` (in `risingwave_common`, outside the excerpt) abstracted as a
function `next`.  The body mirrors the source:
`let mut new_epoch = prev_epoch.next();` …
`let prev_epoch = new_epoch; new_epoch = prev_epoch.next();`, the init barrier
is injected with that pair, and on success `new_epoch` is returned. -/
def recovery_epochs (next : Nat → Nat) (prev_epoch : Nat) : RecoveryBarrier × Nat :=
  let new_epoch := next prev_epoch
  let prev_epoch2 := new_epoch
  let new_epoch2 := next prev_epoch2
  ({ prev_epoch := prev_epoch2, curr_epoch := new_epoch2 }, new_epoch2)

/-- Modelled from the spec: `Epoch::next` "advances by at least one"; the
minimal instance advancing by exactly one. -/
def Epoch.next (e : Nat) : Nat := e + 1

/-! ## Dirty-fragment cleanup (`clean_dirty_fragments`) -/

/-- The slice of `TableFragments` that `clean_dirty_fragments` inspects:
its table id (`table_id().table_id`) and whether it reached state `Created`
(`is_created()`). -/
structure TableFragments where
  table_id : Nat
  state_created : Bool
deriving DecidableEq, Repr

/-- `GlobalBarrierManager::clean_dirty_fragments`.
`catalog_manager.list_stream_job_ids()` is the `stream_job_ids` argument and
`fragment_manager.list_table_fragments()` the `table_fragments` argument.
`fragment_manager.drop_table_fragments_vec` (outside the excerpt) is modelled
from the spec as removing the fragments with the listed table ids from the
persisted set.  `hummock_manager.unregister_table_ids` may fail; the source
binds its result to `let _ = … .inspect_err(…)` — the failure is only logged —
so the model takes the result as the argument `unregister_result` and
discards it.  Returns the dropped fragments and the remaining persisted set. -/
def clean_dirty_fragments (stream_job_ids : List Nat)
    (table_fragments : List TableFragments)
    (unregister_result : Except String Unit) :
    Except String (List TableFragments × List TableFragments) :=
  let to_drop_table_fragments := table_fragments.filter fun table_fragment =>
    !(stream_job_ids.contains table_fragment.table_id) || !table_fragment.state_created
  let to_drop_streaming_ids := to_drop_table_fragments.map (·.table_id)
  let remaining := table_fragments.filter fun t =>
    !(to_drop_streaming_ids.contains t.table_id)
  let _ := unregister_result
  .ok (to_drop_table_fragments, remaining)

/-! ## Vnode expression (`src/expr/src/expr/expr_vnode.rs`) -/

/-- `VnodeExpression::eval`: hash all rows of the chunk over the distribution
key columns (`DataChunk::get_hash_values`), then map each hash to its vnode
scalar and collect them into an `Int16` array (an array element is an
optional datum; the builder always appends `Some`). -/
def VnodeExpression.eval (hash : Row → Nat) (dist_key_indices : List Nat)
    (input : DataChunk) : List (Option Int) :=
  (get_hash_values hash dist_key_indices input).map fun h => some (toScalar (toVnode h))

/-- `VnodeExpression::eval_row`: project the row onto the distribution key
columns, hash, and map to the vnode scalar. -/
def VnodeExpression.eval_row (hash : Row → Nat) (dist_key_indices : List Nat)
    (input : Row) : Option Int :=
  some (toScalar (toVnode (hash (projectKey dist_key_indices input))))

/-! ## Fragment scheduler (`src/meta/src/stream/scheduler.rs`) -/

abbrev ActorId := Nat

/-- `risingwave_pb::common::ParallelUnit`. -/
structure ParallelUnit where
  id : Nat
  worker_node_id : Nat
deriving DecidableEq, Repr

/-- A vnode bitmap buffer (`risingwave_pb::common::Buffer` holding a bitmap). -/
abbrev Buffer := List Bool

/-- The slice of `StreamActor` the scheduler reads and writes. -/
structure StreamActor where
  actor_id : ActorId
  colocated_upstream_actor_id : Option ActorId
  upstream_actor_id : List ActorId
  vnode_bitmap : Option Buffer
deriving DecidableEq, Repr

inductive FragmentDistributionType where
  | Single
  | Hash
deriving DecidableEq, Repr

/-- The slice of `Fragment` the scheduler reads and writes.  `vnode_mapping`
is represented by the per-parallel-unit bitmaps (the protobuf encoding of
`ParallelUnitMapping` is irrelevant to the claims). -/
structure Fragment where
  distribution_type : FragmentDistributionType
  actors : List StreamActor
  vnode_mapping : Option (List (Nat × Buffer))
deriving DecidableEq, Repr

/-- Association-list lookup, modelling `BTreeMap` / `HashMap` `get`. -/
def alLookup (l : List (Nat × α)) (k : Nat) : Option α :=
  (l.find? fun p => p.1 == k).map Prod.snd

/-- Association-list insert, modelling `BTreeMap` / `HashMap` `insert`
(overwrites any previous binding of the key). -/
def alInsert (l : List (Nat × α)) (k : Nat) (v : α) : List (Nat × α) :=
  (k, v) :: l.filter fun p => p.1 != k

/-- `ScheduledLocations` (the `worker_locations` field is irrelevant to the
claims and omitted). -/
structure ScheduledLocations where
  actor_locations : List (ActorId × ParallelUnit)
  actor_vnode_bitmaps : List (ActorId × Option Buffer)
deriving DecidableEq, Repr

/-- The distinguishable failure modes of `Scheduler::schedule` and
`schedule_colocate_with`.  The source signals the first five with `bail!` /
`anyhow` errors; the last three model `panic` sites (`assert!`, `expect`,
`unwrap`) that Lean renders as error values. -/
inductive ScheduleError where
  | fragmentHasNoActor
  | actorLocationNotFound (a : ActorId)
  | placementRuleUnsatisfied
  | noParallelUnitToSchedule
  | notEnoughParallelUnits (required got : Nat)
  | emptyActorList
  | missingColocatedUpstream
  | missingVnodeBitmapEntry
  | notSingleton
  | assertUpstreamNonEmpty
deriving DecidableEq, Repr

/-- The accumulating loop of `ScheduledLocations::schedule_colocate_with`:
look every actor id up in `actor_locations` (error when absent), and require
all found locations to agree (error when two differ). -/
def colocateFold (locs : ScheduledLocations) :
    List ActorId → Option ParallelUnit → Except ScheduleError (Option ParallelUnit)
  | [], acc => .ok acc
  | actor_id :: rest, acc =>
    match alLookup locs.actor_locations actor_id with
    | none => .error (.actorLocationNotFound actor_id)
    | some location =>
      match acc with
      | none => colocateFold locs rest (some location)
      | some result_location =>
        if result_location ≠ location then .error .placementRuleUnsatisfied
        else colocateFold locs rest (some result_location)

/-- `ScheduledLocations::schedule_colocate_with`.  The final
`result_location.unwrap()` panics on an empty input list; that panic is the
`emptyActorList` error value. -/
def schedule_colocate_with (locs : ScheduledLocations) (actor_ids : List ActorId) :
    Except ScheduleError ParallelUnit :=
  match colocateFold locs actor_ids none with
  | .error e => .error e
  | .ok (some pu) => .ok pu
  | .ok none => .error .emptyActorList

/-- Modelled from the spec: `ParallelUnitMapping::build` assigns the
`VNODE_COUNT` vnodes to the given parallel units in contiguous blocks whose
sizes differ by at most one (balanced, pure function of the input ordering).
The result is the total `vnode → ParallelUnit` list. -/
def ParallelUnitMapping.build (parallel_units : List ParallelUnit) : List ParallelUnit :=
  let n := parallel_units.length
  parallel_units.enum.flatMap fun ip =>
    List.replicate (VNODE_COUNT / n + if ip.1 < VNODE_COUNT % n then 1 else 0) ip.2

/-- Modelled from the spec: `ParallelUnitMapping::to_bitmaps` is the dual
per-parallel-unit bitmap representation of a mapping. -/
def ParallelUnitMapping.to_bitmaps (mapping : List ParallelUnit)
    (parallel_units : List ParallelUnit) : List (Nat × Buffer) :=
  parallel_units.map fun p => (p.id, mapping.map fun q => q.id == p.id)

/-- `Scheduler::set_fragment_vnode_mapping`: build the mapping over the given
parallel units and set it on the fragment (stored as its bitmap form). -/
def set_fragment_vnode_mapping (fragment : Fragment)
    (parallel_units : List ParallelUnit) : Fragment :=
  let vnode_mapping := ParallelUnitMapping.to_bitmaps
    (ParallelUnitMapping.build parallel_units) parallel_units
  { fragment with vnode_mapping := some vnode_mapping }

/-- The `if let Some(buffer) = vnode_bitmap.as_ref()` insertion into
`parallel_unit_bitmap` in the colocated arm of `Scheduler::schedule`. -/
def insertIfSome (pub : List (Nat × Buffer)) (puId : Nat) (vb : Option Buffer) :
    List (Nat × Buffer) :=
  match vb with
  | some buffer => alInsert pub puId buffer
  | none => pub

/-- The per-actor loop of the colocated arm of `Scheduler::schedule` for hash
fragments: for every actor, place it with `schedule_colocate_with` on its
declared upstream's parallel unit, copy the upstream's `vnode_bitmap` entry
onto the actor and into `actor_vnode_bitmaps`, record the location, and
accumulate the per-parallel-unit bitmaps for the fragment mapping.
The source's `expect("colocated actor id must exists")` and
`actor_vnode_bitmaps.get(..).unwrap()` panics are the `missingColocatedUpstream`
and `missingVnodeBitmapEntry` error values. -/
def scheduleColocatedLoop (locs : ScheduledLocations) (pub : List (Nat × Buffer)) :
    List StreamActor →
    Except ScheduleError (List StreamActor × ScheduledLocations × List (Nat × Buffer))
  | [] => .ok ([], locs, pub)
  | actor :: rest =>
    match actor.colocated_upstream_actor_id with
    | none => .error .missingColocatedUpstream
    | some colocated_actor_id =>
      if actor.upstream_actor_id = [] then .error .assertUpstreamNonEmpty else
      match schedule_colocate_with locs [colocated_actor_id] with
      | .error e => .error e
      | .ok parallel_unit =>
        match alLookup locs.actor_vnode_bitmaps colocated_actor_id with
        | none => .error .missingVnodeBitmapEntry
        | some vnode_bitmap =>
          let pub' := insertIfSome pub parallel_unit.id vnode_bitmap
          let actor' := { actor with vnode_bitmap := vnode_bitmap }
          let locs' : ScheduledLocations :=
            { actor_locations := alInsert locs.actor_locations actor.actor_id parallel_unit,
              actor_vnode_bitmaps :=
                alInsert locs.actor_vnode_bitmaps actor.actor_id vnode_bitmap }
          match scheduleColocatedLoop locs' pub' rest with
          | .error e => .error e
          | .ok (actors', locs'', pub'') => .ok (actor' :: actors', locs'', pub'')

/-- Insertion sort by parallel-unit id, modelling
`parallel_units.sort_unstable_by_key(|p| p.id)`. -/
def sortByPuId (l : List ParallelUnit) : List ParallelUnit :=
  l.foldr (fun p acc => insertByPuId p acc) []
where
  insertByPuId (p : ParallelUnit) : List ParallelUnit → List ParallelUnit
    | [] => [p]
    | q :: rest => if p.id ≤ q.id then p :: q :: rest else q :: insertByPuId p rest

/-- `Scheduler::schedule`.  `all_parallel_units` is the scheduler's
round-robin parallel-unit list; `pick` stands for the singleton arm's
`choose(&mut rand::thread_rng())` (it returns `none` exactly when the list is
empty, which the source turns into the "no parallel unit to schedule" error).
Returns the updated fragment and locations. -/
def Scheduler.schedule (all_parallel_units : List ParallelUnit)
    (pick : List ParallelUnit → Option ParallelUnit)
    (fragment : Fragment) (locations : ScheduledLocations) :
    Except ScheduleError (Fragment × ScheduledLocations) :=
  match fragment.actors with
  | [] => .error .fragmentHasNoActor
  | actor :: restActors =>
    if fragment.distribution_type = .Single then
      -- Singleton fragment: the `let [actor] = …` pattern panics unless there
      -- is exactly one actor; the panic is the `notSingleton` error value.
      match restActors with
      | _ :: _ => .error .notSingleton
      | [] =>
        let puResult : Except ScheduleError ParallelUnit :=
          match actor.colocated_upstream_actor_id with
          | some colocated_actor_id =>
            -- `assert!(!actor.upstream_actor_id.is_empty())`
            if actor.upstream_actor_id = [] then .error .assertUpstreamNonEmpty
            else schedule_colocate_with locations [colocated_actor_id]
          | none =>
            match pick all_parallel_units with
            | some pu => .ok pu
            | none => .error .noParallelUnitToSchedule
        match puResult with
        | .error e => .error e
        | .ok parallel_unit =>
          let fragment' := set_fragment_vnode_mapping fragment [parallel_unit]
          -- vnode field of the actor is left unset for singletons.
          let actor_locations' := alInsert locations.actor_locations actor.actor_id parallel_unit
          .ok (fragment', { locations with actor_locations := actor_locations' })
    else
      -- Normal (hash) fragment.
      if all_parallel_units.length < fragment.actors.length then
        .error (.notEnoughParallelUnits fragment.actors.length all_parallel_units.length)
      else if fragment.actors.any fun a => a.colocated_upstream_actor_id.isSome then
        match scheduleColocatedLoop locations [] fragment.actors with
        | .error e => .error e
        | .ok (actors', locations', parallel_unit_bitmap) =>
          -- fragment `vnode_mapping` merged from the colocated upstreams'
          -- bitmaps (`ParallelUnitMapping::from_bitmaps(..).to_protobuf()`,
          -- kept in bitmap form).
          .ok ({ fragment with actors := actors', vnode_mapping := some parallel_unit_bitmap },
            locations')
      else
        let parallel_units := all_parallel_units.take fragment.actors.length
        let parallel_units := sortByPuId parallel_units
        let fragment' := set_fragment_vnode_mapping fragment parallel_units
        let vnode_bitmaps := ParallelUnitMapping.to_bitmaps
          (ParallelUnitMapping.build parallel_units) parallel_units
        let assigned := fragment.actors.zip parallel_units
        let actors' := assigned.map fun ap =>
          { ap.1 with vnode_bitmap := alLookup vnode_bitmaps ap.2.id }
        let locations' : ScheduledLocations :=
          assigned.foldl (fun ls ap =>
            { actor_locations := alInsert ls.actor_locations ap.1.actor_id ap.2,
              actor_vnode_bitmaps := alInsert ls.actor_vnode_bitmaps ap.1.actor_id
                (alLookup vnode_bitmaps ap.2.id) }) locations
        .ok ({ fragment' with actors := actors' }, locations')

/-! ## Debezium CDC parser
(`src/connector/src/parser/debezium/simd_json_parser.rs`) -/

/-- A parsed JSON value as `simd_json::BorrowedValue` exposes it to the
parser: `null`, strings, objects (association lists over field names), and
the remaining shapes (numbers, booleans, arrays) that the parser never
inspects beyond non-nullness, collapsed into `other`. -/
inductive JsonValue where
  | null
  | str (s : String)
  | obj (fields : List (String × JsonValue))
  | other

/-- `ValueAccess::get`: field lookup on an object, `none` otherwise. -/
def JsonValue.get (v : JsonValue) (key : String) : Option JsonValue :=
  match v with
  | .obj fields => (fields.find? fun p => p.1 == key).map Prod.snd
  | _ => none

/-- `ValueAccess::as_str`. -/
def JsonValue.as_str (v : JsonValue) : Option String :=
  match v with
  | .str s => some s
  | _ => none

/-- `ensure_not_null`: `None` for JSON `null`, the value otherwise. -/
def ensure_not_null (value : JsonValue) : Option JsonValue :=
  match value with
  | .null => none
  | _ => some value

/-- Modelled from the spec: the Debezium op codes of
`super::operators` — `op ∈ {c, r, u, d}` for create / read / update / delete. -/
def DEBEZIUM_CREATE_OP : String := "c"
def DEBEZIUM_READ_OP : String := "r"
def DEBEZIUM_UPDATE_OP : String := "u"
def DEBEZIUM_DELETE_OP : String := "d"

/-- The single write a well-formed payload issues on the
`SourceStreamChunkRowWriter`, carrying the sub-documents the per-column
closures read from (`simd_json_parse_value` on individual columns is outside
the excerpt and abstracted away). -/
inductive RowWrite where
  | update (before after : JsonValue)
  | insert (after : JsonValue)
  | delete (before : JsonValue)

/-- `DebeziumJsonParser::parse_inner` after `simd_json::to_borrowed_value`
succeeded; `event` is the parsed document.  Every error the function itself
raises is a `ProtocolError`, carried here as its message. -/
def parse_inner (event : JsonValue) : Except String RowWrite :=
  match (event.get "payload").bind ensure_not_null with
  | none => .error "no payload in debezium event"
  | some payload =>
    match (payload.get "op").bind JsonValue.as_str with
    | none => .error "op field not found in debezium json"
    | some op =>
      if op = DEBEZIUM_UPDATE_OP then
        match (payload.get "before").bind ensure_not_null with
        | none => .error "before is missing for updating event"
        | some before =>
          match (payload.get "after").bind ensure_not_null with
          | none => .error "after is missing for updating event"
          | some after => .ok (.update before after)
      else if op = DEBEZIUM_CREATE_OP ∨ op = DEBEZIUM_READ_OP then
        match (payload.get "after").bind ensure_not_null with
        | none => .error "after is missing for creating event"
        | some after => .ok (.insert after)
      else if op = DEBEZIUM_DELETE_OP then
        match (payload.get "before").bind ensure_not_null with
        | none => .error "before is missing for delete event"
        | some before => .ok (.delete before)
      else .error "unknown debezium op"

/-- The op string of an event, when present: the non-null `payload` field's
`op` field as a string. -/
def eventOp (event : JsonValue) : Option String :=
  ((event.get "payload").bind ensure_not_null).bind fun payload =>
    (payload.get "op").bind JsonValue.as_str

/-- Well-formedness of a Debezium event, as the claim states it: `payload`
present and non-null, `op` present as a string and one of the four known ops,
and the fields the op requires present and non-null (`u`: both `before` and
`after`; `c`/`r`: `after`; `d`: `before`). -/
def debeziumWellFormed (event : JsonValue) : Prop :=
  ∃ payload, (event.get "payload").bind ensure_not_null = some payload ∧
    ∃ op, (payload.get "op").bind JsonValue.as_str = some op ∧
      ((op = DEBEZIUM_UPDATE_OP ∧
          (∃ b, (payload.get "before").bind ensure_not_null = some b) ∧
          (∃ a, (payload.get "after").bind ensure_not_null = some a)) ∨
       ((op = DEBEZIUM_CREATE_OP ∨ op = DEBEZIUM_READ_OP) ∧
          ∃ a, (payload.get "after").bind ensure_not_null = some a) ∨
       (op = DEBEZIUM_DELETE_OP ∧
          ∃ b, (payload.get "before").bind ensure_not_null = some b))

/-- The spec's scenario-6 payload shape:
`{op: "u", before: {…}, after: {…}}` wrapped in a `payload` envelope. -/
def demoDebeziumEvent : JsonValue :=
  .obj [("payload", .obj
    [("op", .str "u"),
     ("before", .obj [("id", .other)]),
     ("after", .obj [("id", .other)])])]

/-! ## Error-code mapping (`rust/server/src/error.rs`) -/

/-- The grpc status codes that `to_grpc_error_code` produces. -/
inductive RpcStatusCode where
  | OK
  | INTERNAL
  | NOT_FOUND
  | UNIMPLEMENTED
deriving DecidableEq, Repr

/-- `ErrorCode` with the payloads abstracted (the payload types `Layout`,
`ProtobufError`, `IoError`, … are external; the mapping never inspects them). -/
inductive ErrorCode where
  | OK
  | MemoryError (layout : Nat)
  | InternalError (msg : String)
  | ProtobufError (e : String)
  | NotImplementedError (msg : String)
  | IoError (e : String)
  | GrpcError (ctx : String) (e : String)
  | ParseError (e : String)
  | NumericValueOutOfRange
  | ProtocolError (msg : String)
  | TaskNotFound
deriving DecidableEq, Repr

/-- `ErrorCode::to_grpc_error_code`, with the source's `_ => INTERNAL`
catch-all. -/
def ErrorCode.to_grpc_error_code : ErrorCode → RpcStatusCode
  | .OK => .OK
  | .NotImplementedError _ => .UNIMPLEMENTED
  | .TaskNotFound => .NOT_FOUND
  | _ => .INTERNAL

/-- The mapping as the specification states it, every variant spelled out:
`NOT_FOUND` for `TaskNotFound`, `UNIMPLEMENTED` for `NotImplementedError`,
`OK` for `OK`, and `INTERNAL` for each of the eight remaining variants. -/
def spec_grpc_code : ErrorCode → RpcStatusCode
  | .TaskNotFound => .NOT_FOUND
  | .NotImplementedError _ => .UNIMPLEMENTED
  | .OK => .OK
  | .MemoryError _ => .INTERNAL
  | .InternalError _ => .INTERNAL
  | .ProtobufError _ => .INTERNAL
  | .IoError _ => .INTERNAL
  | .GrpcError _ _ => .INTERNAL
  | .ParseError _ => .INTERNAL
  | .NumericValueOutOfRange => .INTERNAL
  | .ProtocolError _ => .INTERNAL

end RisingWave

namespace RisingWave

/-! ## Theorems -/

/-- **C8** — For every `ErrorCode` value, `to_grpc_error_code` returns
`NOT_FOUND` for `TaskNotFound`, `UNIMPLEMENTED` for `NotImplementedError`,
`OK` for `OK`, and `INTERNAL` for every other variant (`MemoryError`,
`InternalError`, `ProtobufError`, `IoError`, `GrpcError`, `ParseError`,
`NumericValueOutOfRange`, `ProtocolError`). -/
theorem to_grpc_error_code_spec (e : ErrorCode) :
    e.to_grpc_error_code = spec_grpc_code e := by
  cases e <;> rfl

/-- **C2**, counterexample — With `Epoch::next` modelled minimally as the
`+1` successor (the spec only requires that `next` advance by at least one),
`recovery(prev_epoch = 0)` returns epoch `2` and injects the init barrier at
`curr_epoch = 2`, not at `prev_epoch.next() = 1` as the claim states: the
returned epoch / injected `curr_epoch` is the second successor of the input,
never the immediate successor. -/
theorem recovery_epoch_counterexample :
    (recovery_epochs Epoch.next 0).2 ≠ Epoch.next 0 ∧
    (recovery_epochs Epoch.next 0).1.curr_epoch ≠ Epoch.next 0 ∧
    (recovery_epochs Epoch.next 0).2 = 2 := by
  refine ⟨?_, ?_, rfl⟩ <;> decide

/-- **C2**, amended — `recovery(prev_epoch)` injects the initialization Add
barrier with `prev_epoch = input.next()` and `curr_epoch = input.next().next()`;
the value recovery returns equals the injected barrier's `curr_epoch`, namely
the **second** successor `input.next().next()` of the input; in particular,
whenever `next` strictly advances, the barrier's `curr_epoch` exceeds its
`prev_epoch` and the returned epoch is strictly greater than the input. -/
theorem recovery_epoch_amended (next : Nat → Nat) (p : Nat)
    (hnext : ∀ e, e < next e) :
    (recovery_epochs next p).1.prev_epoch = next p ∧
    (recovery_epochs next p).1.curr_epoch = next (next p) ∧
    (recovery_epochs next p).2 = (recovery_epochs next p).1.curr_epoch ∧
    (recovery_epochs next p).1.prev_epoch < (recovery_epochs next p).1.curr_epoch ∧
    p < (recovery_epochs next p).2 :=
  ⟨rfl, rfl, rfl, hnext _, lt_trans (hnext p) (hnext _)⟩

/-- Witness for `recovery_epoch_amended` at `next = Epoch.next`, `p = 0`. -/
theorem recovery_epoch_amended_witness :
    (recovery_epochs Epoch.next 0).1.prev_epoch = Epoch.next 0 ∧
    (recovery_epochs Epoch.next 0).1.curr_epoch = Epoch.next (Epoch.next 0) ∧
    (recovery_epochs Epoch.next 0).2 = (recovery_epochs Epoch.next 0).1.curr_epoch ∧
    (recovery_epochs Epoch.next 0).1.prev_epoch < (recovery_epochs Epoch.next 0).1.curr_epoch ∧
    0 < (recovery_epochs Epoch.next 0).2 :=
  recovery_epoch_amended Epoch.next 0 (fun e => Nat.lt_succ_self e)

/-- **C7** — Whenever the shuffle receiver's `recv` observes channel closure
(all senders dropped, queue drained: position at or past the end of the
pushed messages), it returns the `BrokenChannel`-style
`InternalError("broken hash_shuffle_channel")` rather than a graceful end of
stream; a queued `EndOfStream` marker (`None` message) is delivered as a
successful `None` result, and a queued chunk as a successful `Some`. -/
theorem recv_channel_closure (msgs : List (Option DataChunk)) (i : Nat) :
    (msgs.length ≤ i → recvAt msgs i = .error "broken hash_shuffle_channel") ∧
    (msgs.get? i = some none → recvAt msgs i = .ok none) ∧
    (∀ c, msgs.get? i = some (some c) → recvAt msgs i = .ok (some c)) := by
  refine ⟨fun h => ?_, fun h => ?_, fun c h => ?_⟩
  · unfold recvAt ConsistentHashShuffleReceiver.recv
    rw [List.get?_eq_none.mpr h]
  · unfold recvAt ConsistentHashShuffleReceiver.recv
    rw [h]
  · unfold recvAt ConsistentHashShuffleReceiver.recv
    rw [h]

/-- Witness for `recv_channel_closure`: a queue that received one chunk and
the `EndOfStream` marker; reading past the end yields the broken-channel
error, reading the marker yields `Ok None`. -/
theorem recv_channel_closure_witness :
    recvAt [some ⟨[[1]], none⟩, none] 2 = .error "broken hash_shuffle_channel" ∧
    recvAt [some ⟨[[1]], none⟩, none] 1 = .ok none ∧
    recvAt [some ⟨[[1]], none⟩, none] 0 = .ok (some ⟨[[1]], none⟩) :=
  ⟨(recv_channel_closure [some ⟨[[1]], none⟩, none] 2).1 (by decide),
   (recv_channel_closure [some ⟨[[1]], none⟩, none] 1).2.1 (by decide),
   (recv_channel_closure [some ⟨[[1]], none⟩, none] 0).2.2 ⟨[[1]], none⟩ (by decide)⟩

/-- **C10** — Chunk-wise and row-wise vnode evaluation agree: for every data
chunk and row position `i`, the `i`-th element of `VnodeExpression::eval` on
the chunk equals the value `VnodeExpression::eval_row` returns on the chunk's
`i`-th row — both hash the projected distribution-key columns with the same
(CRC32) hash and map it to the same vnode scalar, which lies in
`[0, VNODE_COUNT)`. -/
theorem vnode_eval_agree (hash : Row → Nat) (keys : List Nat)
    (chunk : DataChunk) (i : Nat) (hi : i < chunk.rows.length) :
    (VnodeExpression.eval hash keys chunk).get? i
      = some (VnodeExpression.eval_row hash keys (chunk.rows.get ⟨i, hi⟩)) ∧
    ∀ d ∈ VnodeExpression.eval hash keys chunk,
      ∃ v, d = some (toScalar v) ∧ v < VNODE_COUNT := by
  constructor
  · unfold VnodeExpression.eval VnodeExpression.eval_row get_hash_values
    rw [List.get?_map, List.get?_map, List.get?_eq_get hi]
    rfl
  · intro d hd
    unfold VnodeExpression.eval get_hash_values at hd
    rw [List.map_map] at hd
    obtain ⟨r, _, hr⟩ := List.mem_map.mp hd
    exact ⟨toVnode (hash (projectKey keys r)), hr.symm,
      Nat.mod_lt _ (by unfold VNODE_COUNT; omega)⟩

/-- Witness for `vnode_eval_agree` on a one-row chunk with key column 0. -/
theorem vnode_eval_agree_witness :
    (VnodeExpression.eval (fun r => (r.headD 0).natAbs) [0] ⟨[[5]], none⟩).get? 0
      = some (VnodeExpression.eval_row (fun r => (r.headD 0).natAbs) [0] [5]) ∧
    ∀ d ∈ VnodeExpression.eval (fun r => (r.headD 0).natAbs) [0] ⟨[[5]], none⟩,
      ∃ v, d = some (toScalar v) ∧ v < VNODE_COUNT :=
  vnode_eval_agree (fun r => (r.headD 0).natAbs) [0] ⟨[[5]], none⟩ 0 (by decide)

end RisingWave


namespace RisingWave

/-- **C6** — `clean_dirty_fragments` drops exactly those persisted table
fragments whose table id is absent from the catalog's stream-job-id list or
which are not marked `Created`; the remaining persisted fragments are exactly
the others; and it returns `Ok` — recovery is not aborted — for **every**
outcome of unregistering the dropped fragments' compaction groups, that
failure being only logged. -/
theorem clean_dirty_fragments_spec (stream_job_ids : List Nat)
    (table_fragments : List TableFragments) (unregister_result : Except String Unit)
    (hnodup : (table_fragments.map TableFragments.table_id).Nodup) :
    ∃ dropped remaining,
      clean_dirty_fragments stream_job_ids table_fragments unregister_result
        = .ok (dropped, remaining) ∧
      (∀ t, t ∈ dropped ↔ t ∈ table_fragments ∧
        (t.table_id ∉ stream_job_ids ∨ t.state_created = false)) ∧
      (∀ t, t ∈ remaining ↔ t ∈ table_fragments ∧
        t.table_id ∈ stream_job_ids ∧ t.state_created = true) := by
  refine ⟨_, _, rfl, fun t => ?_, fun t => ?_⟩
  · simp [List.mem_filter]
  · constructor
    · intro hmem
      have hparts := List.mem_filter.mp hmem
      have ht := hparts.1
      have hnotin : t.table_id ∉ (table_fragments.filter fun tf =>
          !(stream_job_ids.contains tf.table_id) || !tf.state_created).map
            TableFragments.table_id := by simpa using hparts.2
      by_cases hj : t.table_id ∈ stream_job_ids
      · cases hc : t.state_created
        · exact absurd (List.mem_map_of_mem _
            (List.mem_filter.mpr ⟨ht, by simp [hc]⟩)) hnotin
        · exact ⟨ht, hj, rfl⟩
      · exact absurd (List.mem_map_of_mem _
          (List.mem_filter.mpr ⟨ht, by simp [hj]⟩)) hnotin
    · rintro ⟨ht, hj, hc⟩
      refine List.mem_filter.mpr ⟨ht, ?_⟩
      have hnotin : t.table_id ∉ (table_fragments.filter fun tf =>
          !(stream_job_ids.contains tf.table_id) || !tf.state_created).map
            TableFragments.table_id := by
        intro habs
        obtain ⟨s, hs, hid⟩ := List.mem_map.mp habs
        have hst : s = t :=
          List.inj_on_of_nodup_map hnodup (List.mem_filter.mp hs).1 ht hid
        subst hst
        have hcond := (List.mem_filter.mp hs).2
        simp [hj, hc] at hcond
      simpa using hnotin

/-- Witness for `clean_dirty_fragments_spec`, the spec's scenario 5: fragment
`T7` is persisted but job `7` is gone; even with the compaction-group
unregistration failing, cleanup returns `Ok`, drops `T7` and keeps the
healthy fragment. -/
theorem clean_dirty_fragments_spec_witness :
    (([⟨7, true⟩, ⟨3, true⟩, ⟨5, false⟩] : List TableFragments).map
        TableFragments.table_id).Nodup ∧
    ∃ dropped remaining,
      clean_dirty_fragments [3, 5] [⟨7, true⟩, ⟨3, true⟩, ⟨5, false⟩]
          (.error "unregister failed") = .ok (dropped, remaining) ∧
      (∀ t, t ∈ dropped ↔ t ∈ ([⟨7, true⟩, ⟨3, true⟩, ⟨5, false⟩] : List TableFragments) ∧
        (t.table_id ∉ [3, 5] ∨ t.state_created = false)) ∧
      (∀ t, t ∈ remaining ↔ t ∈ ([⟨7, true⟩, ⟨3, true⟩, ⟨5, false⟩] : List TableFragments) ∧
        t.table_id ∈ [3, 5] ∧ t.state_created = true) :=
  ⟨by decide, clean_dirty_fragments_spec [3, 5] [⟨7, true⟩, ⟨3, true⟩, ⟨5, false⟩]
    (.error "unregister failed") (by decide)⟩

end RisingWave


namespace RisingWave

/-- `colocateFold` never fails with the capacity error: its only failures are
a missing actor location or a placement-rule mismatch. -/
theorem colocateFold_ne_capacity (locs : ScheduledLocations) (ids : List ActorId)
    (acc : Option ParallelUnit) (r g : Nat) :
    colocateFold locs ids acc ≠ .error (.notEnoughParallelUnits r g) := by
  induction ids generalizing acc with
  | nil => simp [colocateFold]
  | cons a rest ih =>
    simp only [colocateFold]
    cases alLookup locs.actor_locations a with
    | none => simp
    | some loc =>
      cases acc with
      | none => exact ih (some loc)
      | some r0 =>
        by_cases h : r0 ≠ loc
        · simp [h]
        · simpa [h] using ih (some r0)

/-- `schedule_colocate_with` never fails with the capacity error. -/
theorem schedule_colocate_with_ne_capacity (locs : ScheduledLocations)
    (ids : List ActorId) (r g : Nat) :
    schedule_colocate_with locs ids ≠ .error (.notEnoughParallelUnits r g) := by
  unfold schedule_colocate_with
  cases hf : colocateFold locs ids none with
  | error e =>
    intro habs
    simp only at habs
    cases habs
    exact colocateFold_ne_capacity locs ids none r g hf
  | ok acc => cases acc <;> simp

/-- The colocated scheduling loop never fails with the capacity error. -/
theorem scheduleColocatedLoop_ne_capacity (actors : List StreamActor)
    (locs : ScheduledLocations) (pub : List (Nat × Buffer)) (r g : Nat) :
    scheduleColocatedLoop locs pub actors ≠ .error (.notEnoughParallelUnits r g) := by
  induction actors generalizing locs pub with
  | nil => simp [scheduleColocatedLoop]
  | cons a rest ih =>
    simp only [scheduleColocatedLoop]
    cases a.colocated_upstream_actor_id with
    | none => simp
    | some c =>
      by_cases hup : a.upstream_actor_id = []
      · simp [hup]
      · simp only [hup, if_false]
        cases hs : schedule_colocate_with locs [c] with
        | error e =>
          intro habs
          simp only at habs
          cases habs
          exact schedule_colocate_with_ne_capacity locs [c] r g hs
        | ok pu =>
          cases alLookup locs.actor_vnode_bitmaps c with
          | none => simp
          | some vb =>
            simp only
            split
            · rename_i e heq
              intro habs
              cases habs
              exact ih _ _ heq
            · simp

end RisingWave


namespace RisingWave

/-- **C5** — For every non-empty hash-distributed fragment, `Scheduler::schedule`
fails with the `NotEnoughCapacity` error ("not enough parallel units to
schedule") exactly when the number of actors in the fragment exceeds the total
number of parallel units known to the scheduler; when the actor count is at
most the parallel-unit count, it never fails for this reason. -/
theorem schedule_not_enough_capacity (all_parallel_units : List ParallelUnit)
    (pick : List ParallelUnit → Option ParallelUnit) (fragment : Fragment)
    (locations : ScheduledLocations)
    (hdist : fragment.distribution_type = .Hash)
    (hne : fragment.actors ≠ []) :
    (∃ r g, Scheduler.schedule all_parallel_units pick fragment locations
        = .error (.notEnoughParallelUnits r g))
      ↔ all_parallel_units.length < fragment.actors.length := by
  obtain ⟨a, rest, hfa⟩ : ∃ a rest, fragment.actors = a :: rest := by
    cases hfa : fragment.actors with
    | nil => exact absurd hfa hne
    | cons a rest => exact ⟨a, rest, rfl⟩
  unfold Scheduler.schedule
  simp only [hfa, hdist]
  by_cases hcap : all_parallel_units.length < (a :: rest).length
  · rw [if_pos hcap]
    constructor
    · intro _
      exact hcap
    · intro _
      exact ⟨(a :: rest).length, all_parallel_units.length, rfl⟩
  · rw [if_neg hcap]
    constructor
    · intro ⟨r, g, habs⟩
      exfalso
      by_cases hany : (a :: rest).any fun x => x.colocated_upstream_actor_id.isSome
      · simp only [hany, if_true] at habs
        cases hloop : scheduleColocatedLoop locations [] (a :: rest) with
        | error e =>
          rw [hloop] at habs
          simp only at habs
          cases habs
          exact scheduleColocatedLoop_ne_capacity (a :: rest) locations [] r g hloop
        | ok out =>
          rw [hloop] at habs
          obtain ⟨actors2, locs2, pub2⟩ := out
          simp only at habs
          cases habs
      · simp only [hany, if_false] at habs
        simp at habs
    · intro habs
      exact absurd habs hcap

end RisingWave


namespace RisingWave

theorem alLookup_cons (a : Nat) (b : α) (rest : List (Nat × α)) (k : Nat) :
    alLookup ((a, b) :: rest) k = if a = k then some b else alLookup rest k := by
  unfold alLookup
  rw [List.find?_cons]
  by_cases h : a = k
  · simp [h]
  · have hb : (a == k) = false := by simpa using h
    simp [h, hb]

theorem alLookup_alInsert_self (l : List (Nat × α)) (k : Nat) (v : α) :
    alLookup (alInsert l k v) k = some v := by
  unfold alInsert
  rw [alLookup_cons, if_pos rfl]

theorem alLookup_filter_ne (l : List (Nat × α)) (k k2 : Nat) (hne : k ≠ k2) :
    alLookup (l.filter fun p => p.1 != k2) k = alLookup l k := by
  induction l with
  | nil => rfl
  | cons p rest ih =>
    obtain ⟨a, b⟩ := p
    rw [List.filter_cons]
    by_cases hp : a = k2
    · rw [if_neg (by simpa using hp), ih, alLookup_cons, if_neg (by omega)]
    · rw [if_pos (by simpa using hp), alLookup_cons, alLookup_cons, ih]

theorem alLookup_alInsert_ne (l : List (Nat × α)) (k k2 : Nat) (v : α) (hne : k ≠ k2) :
    alLookup (alInsert l k2 v) k = alLookup l k := by
  unfold alInsert
  rw [alLookup_cons, if_neg (Ne.symm hne)]
  exact alLookup_filter_ne l k k2 hne

/-- Looking a placed actor up through `schedule_colocate_with` with a
singleton list returns its parallel unit. -/
theorem schedule_colocate_with_single (locs : ScheduledLocations) (b : ActorId)
    (pu : ParallelUnit) (h : alLookup locs.actor_locations b = some pu) :
    schedule_colocate_with locs [b] = .ok pu := by
  unfold schedule_colocate_with
  rw [colocateFold, h]
  rfl

/-- A successful `colocateFold` found a location for every listed actor. -/
theorem colocateFold_ok_found (locs : ScheduledLocations) (ids : List ActorId) :
    ∀ acc res, colocateFold locs ids acc = .ok res →
      ∀ a ∈ ids, ∃ pu, alLookup locs.actor_locations a = some pu := by
  induction ids with
  | nil => intro acc res _ a ha; cases ha
  | cons x rest ih =>
    intro acc res hok a ha
    rw [colocateFold] at hok
    cases hx : alLookup locs.actor_locations x with
    | none => rw [hx] at hok; cases hok
    | some loc =>
      rw [hx] at hok
      rcases List.mem_cons.mp ha with rfl | ha2
      · exact ⟨loc, hx⟩
      · cases acc with
        | none => exact ih _ _ hok a ha2
        | some r0 =>
          dsimp only at hok
          by_cases hr : r0 ≠ loc
          · rw [if_pos hr] at hok; cases hok
          · rw [if_neg hr] at hok
            exact ih _ _ hok a ha2

/-- A `colocateFold` that starts with a candidate location and succeeds
keeps that candidate, and every listed actor is placed exactly there. -/
theorem colocateFold_ok_some (locs : ScheduledLocations) (ids : List ActorId)
    (r : ParallelUnit) :
    ∀ res, colocateFold locs ids (some r) = .ok res →
      res = some r ∧ ∀ a ∈ ids, alLookup locs.actor_locations a = some r := by
  induction ids with
  | nil =>
    intro res hok
    rw [colocateFold] at hok
    cases hok
    exact ⟨rfl, by simp⟩
  | cons x rest ih =>
    intro res hok
    rw [colocateFold] at hok
    cases hx : alLookup locs.actor_locations x with
    | none => rw [hx] at hok; cases hok
    | some loc =>
      rw [hx] at hok
      dsimp only at hok
      by_cases hr : r ≠ loc
      · rw [if_pos hr] at hok; cases hok
      · rw [if_neg hr] at hok
        push_neg at hr
        obtain ⟨hres, hall⟩ := ih res hok
        refine ⟨hres, fun a ha => ?_⟩
        rcases List.mem_cons.mp ha with rfl | ha2
        · rw [hx, hr]
        · exact hall a ha2

/-- `schedule_colocate_with` returns an error whenever one of the listed
upstream actors has not been placed. -/
theorem schedule_colocate_with_unplaced (locs : ScheduledLocations)
    (ids : List ActorId) (a : ActorId) (ha : a ∈ ids)
    (hnone : alLookup locs.actor_locations a = none) :
    ∃ e, schedule_colocate_with locs ids = .error e := by
  cases hr : schedule_colocate_with locs ids with
  | error e => exact ⟨e, rfl⟩
  | ok pu =>
    exfalso
    unfold schedule_colocate_with at hr
    cases hf : colocateFold locs ids none with
    | error e => rw [hf] at hr; cases hr
    | ok acc =>
      obtain ⟨pu2, hpu2⟩ := colocateFold_ok_found locs ids none acc hf a ha
      rw [hnone] at hpu2
      cases hpu2

/-- `schedule_colocate_with` returns an error whenever two of the listed
upstream actors are placed on different parallel units. -/
theorem schedule_colocate_with_mismatch (locs : ScheduledLocations)
    (ids : List ActorId) (a₁ a₂ : ActorId) (p₁ p₂ : ParallelUnit)
    (h₁ : a₁ ∈ ids) (h₂ : a₂ ∈ ids)
    (hl₁ : alLookup locs.actor_locations a₁ = some p₁)
    (hl₂ : alLookup locs.actor_locations a₂ = some p₂)
    (hne : p₁ ≠ p₂) :
    ∃ e, schedule_colocate_with locs ids = .error e := by
  cases hr : schedule_colocate_with locs ids with
  | error e => exact ⟨e, rfl⟩
  | ok pu =>
    exfalso
    unfold schedule_colocate_with at hr
    cases hf : colocateFold locs ids none with
    | error e => rw [hf] at hr; cases hr
    | ok acc =>
      cases ids with
      | nil => cases h₁
      | cons x rest =>
        rw [colocateFold] at hf
        cases hx : alLookup locs.actor_locations x with
        | none => rw [hx] at hf; cases hf
        | some loc =>
          rw [hx] at hf
          obtain ⟨_, hall⟩ := colocateFold_ok_some locs rest loc acc hf
          have hall2 : ∀ a ∈ x :: rest, alLookup locs.actor_locations a = some loc := by
            intro a ha
            rcases List.mem_cons.mp ha with rfl | ha2
            · exact hx
            · exact hall a ha2
          have e1 := hall2 a₁ h₁
          have e2 := hall2 a₂ h₂
          rw [hl₁] at e1
          rw [hl₂] at e2
          exact hne ((Option.some.inj e1).trans (Option.some.inj e2).symm)

end RisingWave


namespace RisingWave

/-- The colocated scheduling loop only touches the map entries of its own
actors: any other key keeps its location and bitmap bindings. -/
theorem scheduleColocatedLoop_preserves (actors : List StreamActor) :
    ∀ locs pub out, scheduleColocatedLoop locs pub actors = .ok out →
    ∀ k, k ∉ actors.map StreamActor.actor_id →
      alLookup out.2.1.actor_locations k = alLookup locs.actor_locations k ∧
      alLookup out.2.1.actor_vnode_bitmaps k = alLookup locs.actor_vnode_bitmaps k := by
  induction actors with
  | nil =>
    intro locs pub out hok k _
    rw [scheduleColocatedLoop] at hok
    cases hok
    exact ⟨rfl, rfl⟩
  | cons a rest ih =>
    intro locs pub out hok k hk
    have hka : k ≠ a.actor_id := fun h => hk (by simp [h])
    have hkrest : k ∉ rest.map StreamActor.actor_id := fun h => hk (by simp [h])
    rw [scheduleColocatedLoop] at hok
    split at hok
    · cases hok
    · split at hok
      · cases hok
      · split at hok
        · cases hok
        · split at hok
          · cases hok
          · dsimp only at hok
            split at hok
            · cases hok
            · rename_i hrec
              cases hok
              have hpres := ih _ _ _ hrec k hkrest
              dsimp only at hpres ⊢
              rw [hpres.1, hpres.2]
              exact ⟨alLookup_alInsert_ne _ _ _ _ hka, alLookup_alInsert_ne _ _ _ _ hka⟩

/-- In a successful run of the colocated scheduling loop, every actor `A`
declaring colocated upstream `B` — with `B` placed beforehand and ids not
clashing — ends up recorded on `B`'s parallel unit with `B`'s vnode-bitmap
entry copied verbatim, and the returned actor carries that bitmap. -/
theorem scheduleColocatedLoop_places (actors : List StreamActor) :
    ∀ locs pub out, scheduleColocatedLoop locs pub actors = .ok out →
    ∀ A B puB bmB, A ∈ actors → A.colocated_upstream_actor_id = some B →
      (actors.map StreamActor.actor_id).Nodup →
      B ∉ actors.map StreamActor.actor_id →
      alLookup locs.actor_locations B = some puB →
      alLookup locs.actor_vnode_bitmaps B = some bmB →
      alLookup out.2.1.actor_locations A.actor_id = some puB ∧
      alLookup out.2.1.actor_vnode_bitmaps A.actor_id = some bmB ∧
      ∃ A2 ∈ out.1, A2.actor_id = A.actor_id ∧ A2.vnode_bitmap = bmB := by
  induction actors with
  | nil => intro locs pub out _ A B puB bmB hA; cases hA
  | cons a rest ih =>
    intro locs pub out hok A B puB bmB hA hAB hnodup hBnot hBloc hBbm
    have hBa : B ≠ a.actor_id := fun h => hBnot (by simp [h])
    have hBrest : B ∉ rest.map StreamActor.actor_id := fun h => hBnot (by simp [h])
    rw [scheduleColocatedLoop] at hok
    split at hok
    · cases hok
    · rename_i c hc
      split at hok
      · cases hok
      · split at hok
        · cases hok
        · rename_i pu hpu
          split at hok
          · cases hok
          · rename_i vb hvb
            dsimp only at hok
            split at hok
            · cases hok
            · rename_i actors2 locs3 pub3 hrec
              cases hok
              rcases List.mem_cons.mp hA with rfl | hA2
              · -- A is the head actor
                rw [hAB] at hc
                injection hc with hc
                subst hc
                rw [schedule_colocate_with_single locs B puB hBloc] at hpu
                injection hpu with hpu
                subst hpu
                rw [hBbm] at hvb
                injection hvb with hvb
                subst hvb
                have hnotin : A.actor_id ∉ rest.map StreamActor.actor_id := by
                  have := hnodup
                  rw [List.map_cons, List.nodup_cons] at this
                  exact this.1
                have hpres := scheduleColocatedLoop_preserves rest _ _ _ hrec
                  A.actor_id hnotin
                dsimp only at hpres ⊢
                rw [hpres.1, hpres.2]
                refine ⟨alLookup_alInsert_self _ _ _, alLookup_alInsert_self _ _ _, ?_⟩
                exact ⟨{ A with vnode_bitmap := bmB }, List.mem_cons_self _ _, rfl, rfl⟩
              · -- A is in the tail
                have hnodup2 : (rest.map StreamActor.actor_id).Nodup := by
                  rw [List.map_cons, List.nodup_cons] at hnodup
                  exact hnodup.2
                have hloc2 : alLookup (alInsert locs.actor_locations a.actor_id pu) B
                    = some puB := by
                  rw [alLookup_alInsert_ne _ _ _ _ hBa]
                  exact hBloc
                have hbm2 : alLookup (alInsert locs.actor_vnode_bitmaps a.actor_id vb) B
                    = some bmB := by
                  rw [alLookup_alInsert_ne _ _ _ _ hBa]
                  exact hBbm
                have hres := ih _ _ _ hrec A B puB bmB hA2 hAB hnodup2 hBrest hloc2 hbm2
                dsimp only at hres ⊢
                obtain ⟨A2, hA2mem, hA2id, hA2bm⟩ := hres.2.2
                exact ⟨hres.1, hres.2.1, A2, List.mem_cons_of_mem _ hA2mem, hA2id, hA2bm⟩

end RisingWave


namespace RisingWave

/-- **C3** — Co-location: after successfully scheduling a hash fragment in
which an actor `A` declares `colocated_upstream_actor_id = B` (with `B`
already placed and ids not clashing with the fragment's own actor ids), `A`'s
recorded parallel unit equals `B`'s parallel unit and `A`'s `vnode_bitmap`
(both the map entry and the field set on the returned actor) equals `B`'s
vnode-bitmap entry verbatim; moreover `schedule_colocate_with` returns an
error whenever a listed upstream actor is not yet placed or two listed
upstreams are placed on different parallel units. -/
theorem schedule_colocation (all_parallel_units : List ParallelUnit)
    (pick : List ParallelUnit → Option ParallelUnit)
    (fragment : Fragment) (locations : ScheduledLocations)
    (frag2 : Fragment) (locs2 : ScheduledLocations)
    (A : StreamActor) (B : ActorId) (puB : ParallelUnit) (bmB : Option Buffer)
    (hdist : fragment.distribution_type = .Hash)
    (hok : Scheduler.schedule all_parallel_units pick fragment locations
      = .ok (frag2, locs2))
    (hA : A ∈ fragment.actors)
    (hAB : A.colocated_upstream_actor_id = some B)
    (hnodup : (fragment.actors.map StreamActor.actor_id).Nodup)
    (hBnot : B ∉ fragment.actors.map StreamActor.actor_id)
    (hBloc : alLookup locations.actor_locations B = some puB)
    (hBbm : alLookup locations.actor_vnode_bitmaps B = some bmB) :
    (alLookup locs2.actor_locations A.actor_id = some puB ∧
     alLookup locs2.actor_vnode_bitmaps A.actor_id = some bmB ∧
     ∃ A2 ∈ frag2.actors, A2.actor_id = A.actor_id ∧ A2.vnode_bitmap = bmB) ∧
    (∀ (ls : ScheduledLocations) (ids : List ActorId) (a : ActorId), a ∈ ids →
      alLookup ls.actor_locations a = none →
      ∃ e, schedule_colocate_with ls ids = .error e) ∧
    (∀ (ls : ScheduledLocations) (ids : List ActorId) (a₁ a₂ : ActorId)
        (p₁ p₂ : ParallelUnit),
      a₁ ∈ ids → a₂ ∈ ids →
      alLookup ls.actor_locations a₁ = some p₁ →
      alLookup ls.actor_locations a₂ = some p₂ → p₁ ≠ p₂ →
      ∃ e, schedule_colocate_with ls ids = .error e) := by
  refine ⟨?_, fun ls ids a ha hn => schedule_colocate_with_unplaced ls ids a ha hn,
    fun ls ids a₁ a₂ p₁ p₂ h₁ h₂ hl₁ hl₂ hne =>
      schedule_colocate_with_mismatch ls ids a₁ a₂ p₁ p₂ h₁ h₂ hl₁ hl₂ hne⟩
  obtain ⟨a, rest, hfa⟩ : ∃ a rest, fragment.actors = a :: rest := by
    cases hfa : fragment.actors with
    | nil => rw [hfa] at hA; cases hA
    | cons a rest => exact ⟨a, rest, rfl⟩
  unfold Scheduler.schedule at hok
  rw [hfa, hdist] at hok
  dsimp only at hok
  rw [if_neg (by decide)] at hok
  split at hok
  · cases hok
  · have hany : ((a :: rest).any fun x => x.colocated_upstream_actor_id.isSome)
        = true := by
      refine List.any_eq_true.mpr ⟨A, ?_, ?_⟩
      · rw [← hfa]
        exact hA
      · rw [hAB]
        rfl
    rw [if_pos hany] at hok
    split at hok
    · cases hok
    · rename_i actors2 locs3 pub3 hrec
      have hmain := scheduleColocatedLoop_places (a :: rest) locations []
        (actors2, locs3, pub3) hrec A B puB bmB (hfa ▸ hA) hAB
        (hfa ▸ hnodup) (hfa ▸ hBnot) hBloc hBbm
      dsimp only at hmain
      simp only [Except.ok.injEq, Prod.mk.injEq] at hok
      obtain ⟨h1, h2⟩ := hok
      subst h1
      subst h2
      exact hmain

end RisingWave


namespace RisingWave

/-- Witness for `schedule_not_enough_capacity`: a hash fragment with two
actors and a single parallel unit fails with the capacity error. -/
theorem schedule_not_enough_capacity_witness :
    (∃ r g, Scheduler.schedule [⟨0, 0⟩] (fun _ => none)
        ⟨.Hash, [⟨1, none, [], none⟩, ⟨2, none, [], none⟩], none⟩ ⟨[], []⟩
        = .error (.notEnoughParallelUnits r g))
      ↔ ([⟨0, 0⟩] : List ParallelUnit).length <
          (⟨.Hash, [⟨1, none, [], none⟩, ⟨2, none, [], none⟩], none⟩
            : Fragment).actors.length :=
  schedule_not_enough_capacity [⟨0, 0⟩] (fun _ => none)
    ⟨.Hash, [⟨1, none, [], none⟩, ⟨2, none, [], none⟩], none⟩ ⟨[], []⟩
    rfl (by decide)

/-- Witness for `schedule_colocation`: actor `3` colocated with upstream `7`,
which sits on parallel unit `⟨1, 1⟩` with bitmap `[true]`; after scheduling,
actor `3` is on `⟨1, 1⟩` with the same bitmap. -/
theorem schedule_colocation_witness :
    (alLookup ([(3, ⟨1, 1⟩), (7, ⟨1, 1⟩)] : List (ActorId × ParallelUnit))
        (⟨3, some 7, [7], none⟩ : StreamActor).actor_id = some ⟨1, 1⟩ ∧
     alLookup ([(3, some [true]), (7, some [true])] : List (ActorId × Option Buffer))
        (⟨3, some 7, [7], none⟩ : StreamActor).actor_id = some (some [true]) ∧
     ∃ A2 ∈ (⟨.Hash, [⟨3, some 7, [7], some [true]⟩], some [(1, [true])]⟩
          : Fragment).actors,
       A2.actor_id = (⟨3, some 7, [7], none⟩ : StreamActor).actor_id ∧
       A2.vnode_bitmap = some [true]) ∧
    (∀ (ls : ScheduledLocations) (ids : List ActorId) (a : ActorId), a ∈ ids →
      alLookup ls.actor_locations a = none →
      ∃ e, schedule_colocate_with ls ids = .error e) ∧
    (∀ (ls : ScheduledLocations) (ids : List ActorId) (a₁ a₂ : ActorId)
        (p₁ p₂ : ParallelUnit),
      a₁ ∈ ids → a₂ ∈ ids →
      alLookup ls.actor_locations a₁ = some p₁ →
      alLookup ls.actor_locations a₂ = some p₂ → p₁ ≠ p₂ →
      ∃ e, schedule_colocate_with ls ids = .error e) :=
  schedule_colocation [⟨1, 1⟩] (fun _ => none)
    ⟨.Hash, [⟨3, some 7, [7], none⟩], none⟩ ⟨[(7, ⟨1, 1⟩)], [(7, some [true])]⟩
    ⟨.Hash, [⟨3, some 7, [7], some [true]⟩], some [(1, [true])]⟩
    ⟨[(3, ⟨1, 1⟩), (7, ⟨1, 1⟩)], [(3, some [true]), (7, some [true])]⟩
    ⟨3, some 7, [7], none⟩ 7 ⟨1, 1⟩ (some [true])
    rfl rfl (by decide) rfl (by decide) (by decide) rfl rfl

end RisingWave


namespace RisingWave

/-- **C4** — For every Debezium payload document, `parse_inner` succeeds if
and only if the payload is well formed for its op (`payload` and `op` present,
`op` one of `u`/`c`/`r`/`d`, `op=u` requiring non-null `before` and `after`,
`op=c`/`op=r` requiring `after`, `op=d` requiring `before`); otherwise it
returns a `ProtocolError`.  Every well-formed payload produces exactly one
write on the row writer: an `update` for `op=u`, an `insert` for `op=c` or
`op=r`, a `delete` for `op=d`. -/
theorem debezium_parse_inner_spec (event : JsonValue) :
    ((∃ w, parse_inner event = .ok w) ↔ debeziumWellFormed event) ∧
    (∀ w, parse_inner event = .ok w →
      (eventOp event = some DEBEZIUM_UPDATE_OP → ∃ b a2, w = .update b a2) ∧
      ((eventOp event = some DEBEZIUM_CREATE_OP ∨
          eventOp event = some DEBEZIUM_READ_OP) → ∃ a2, w = .insert a2) ∧
      (eventOp event = some DEBEZIUM_DELETE_OP → ∃ b, w = .delete b)) := by
  have hne_uc : DEBEZIUM_UPDATE_OP ≠ DEBEZIUM_CREATE_OP := by decide
  have hne_ur : DEBEZIUM_UPDATE_OP ≠ DEBEZIUM_READ_OP := by decide
  have hne_ud : DEBEZIUM_UPDATE_OP ≠ DEBEZIUM_DELETE_OP := by decide
  have hne_cr : DEBEZIUM_CREATE_OP ≠ DEBEZIUM_READ_OP := by decide
  have hne_cd : DEBEZIUM_CREATE_OP ≠ DEBEZIUM_DELETE_OP := by decide
  have hne_rd : DEBEZIUM_READ_OP ≠ DEBEZIUM_DELETE_OP := by decide
  unfold parse_inner eventOp debeziumWellFormed
  cases hp : (event.get "payload").bind ensure_not_null with
  | none => simp
  | some payload =>
    simp only [Option.some_bind]
    cases hop : (payload.get "op").bind JsonValue.as_str with
    | none => simp [hop]
    | some op =>
      dsimp only
      by_cases hu : op = DEBEZIUM_UPDATE_OP
      · subst hu
        rw [if_pos rfl]
        cases hb : (payload.get "before").bind ensure_not_null with
        | none => simp [hop, hb, hne_uc, hne_ur, hne_ud]
        | some b =>
          cases ha : (payload.get "after").bind ensure_not_null with
          | none => simp [hop, hb, ha, hne_uc, hne_ur, hne_ud]
          | some a2 =>
            constructor
            · constructor
              · intro _
                exact ⟨payload, rfl, DEBEZIUM_UPDATE_OP, hop,
                  Or.inl ⟨rfl, ⟨b, hb⟩, ⟨a2, ha⟩⟩⟩
              · intro _
                exact ⟨.update b a2, rfl⟩
            · intro w hw
              injection hw with hw
              subst hw
              refine ⟨fun _ => ⟨b, a2, rfl⟩, fun hcr => ?_, fun hd => ?_⟩
              · rcases hcr with hc | hr
                · exact absurd (Option.some.inj hc) hne_uc
                · exact absurd (Option.some.inj hr) hne_ur
              · exact absurd (Option.some.inj hd) hne_ud
      · rw [if_neg hu]
        by_cases hcr : op = DEBEZIUM_CREATE_OP ∨ op = DEBEZIUM_READ_OP
        · rw [if_pos hcr]
          cases ha : (payload.get "after").bind ensure_not_null with
          | none =>
            constructor
            · constructor
              · rintro ⟨w, hw⟩
                cases hw
              · rintro ⟨p, hpp, o, ho, hforms⟩
                injection hpp with hpp
                subst hpp
                rw [hop] at ho
                injection ho with ho
                subst ho
                rcases hforms with ⟨h1, _, _⟩ | ⟨_, a2, ha2⟩ | ⟨hdel, _⟩
                · exact absurd h1 hu
                · rw [ha] at ha2
                  cases ha2
                · rcases hcr with hc | hr
                  · exact absurd (hc.symm.trans hdel) hne_cd
                  · exact absurd (hr.symm.trans hdel) hne_rd
            · intro w hw
              cases hw
          | some a2 =>
            constructor
            · constructor
              · intro _
                exact ⟨payload, rfl, op, hop, Or.inr (Or.inl ⟨hcr, a2, ha⟩)⟩
              · intro _
                exact ⟨.insert a2, rfl⟩
            · intro w hw
              injection hw with hw
              subst hw
              refine ⟨fun h1 => absurd (Option.some.inj h1) hu,
                fun _ => ⟨a2, rfl⟩, fun hdel => ?_⟩
              have hod := Option.some.inj hdel
              rcases hcr with hc | hr
              · exact absurd (hc.symm.trans hod) hne_cd
              · exact absurd (hr.symm.trans hod) hne_rd
        · rw [if_neg hcr]
          push_neg at hcr
          by_cases hd : op = DEBEZIUM_DELETE_OP
          · subst hd
            rw [if_pos rfl]
            cases hb : (payload.get "before").bind ensure_not_null with
            | none =>
              constructor
              · constructor
                · rintro ⟨w, hw⟩
                  cases hw
                · rintro ⟨p, hpp, o, ho, hforms⟩
                  injection hpp with hpp
                  subst hpp
                  rw [hop] at ho
                  injection ho with ho
                  subst ho
                  rcases hforms with ⟨h1, _, _⟩ | ⟨h2, _⟩ | ⟨_, b, hbb⟩
                  · exact absurd h1 hu
                  · rcases h2 with hc | hr
                    · exact absurd hc hcr.1
                    · exact absurd hr hcr.2
                  · rw [hb] at hbb
                    cases hbb
              · intro w hw
                cases hw
            | some b =>
              constructor
              · constructor
                · intro _
                  exact ⟨payload, rfl, DEBEZIUM_DELETE_OP, hop,
                    Or.inr (Or.inr ⟨rfl, b, hb⟩)⟩
                · intro _
                  exact ⟨.delete b, rfl⟩
              · intro w hw
                injection hw with hw
                subst hw
                refine ⟨fun h1 => absurd (Option.some.inj h1) hu, fun h2 => ?_,
                  fun _ => ⟨b, rfl⟩⟩
                rcases h2 with hc | hr
                · exact absurd (Option.some.inj hc) hcr.1
                · exact absurd (Option.some.inj hr) hcr.2
          · rw [if_neg hd]
            constructor
            · constructor
              · rintro ⟨w, hw⟩
                cases hw
              · rintro ⟨p, hpp, o, ho, hforms⟩
                injection hpp with hpp
                subst hpp
                rw [hop] at ho
                injection ho with ho
                subst ho
                rcases hforms with ⟨h1, _, _⟩ | ⟨h2, _⟩ | ⟨h3, _⟩
                · exact absurd h1 hu
                · rcases h2 with hc | hr
                  · exact absurd hc hcr.1
                  · exact absurd hr hcr.2
                · exact absurd h3 hd
            · intro w hw
              cases hw

end RisingWave


namespace RisingWave

/-- Witness for `debezium_parse_inner_spec` at the spec's scenario-6 update
payload. -/
theorem debezium_parse_inner_spec_witness :
    ((∃ w, parse_inner demoDebeziumEvent = .ok w) ↔
        debeziumWellFormed demoDebeziumEvent) ∧
    (∀ w, parse_inner demoDebeziumEvent = .ok w →
      (eventOp demoDebeziumEvent = some DEBEZIUM_UPDATE_OP →
        ∃ b a2, w = .update b a2) ∧
      ((eventOp demoDebeziumEvent = some DEBEZIUM_CREATE_OP ∨
          eventOp demoDebeziumEvent = some DEBEZIUM_READ_OP) →
        ∃ a2, w = .insert a2) ∧
      (eventOp demoDebeziumEvent = some DEBEZIUM_DELETE_OP →
        ∃ b, w = .delete b)) :=
  debezium_parse_inner_spec demoDebeziumEvent

end RisingWave


namespace RisingWave

theorem generate_new_data_chunks_eq (chunk : DataChunk) (N : Nat) (hv : List Nat) :
    generate_new_data_chunks chunk N hv
      = (List.range N).map fun s => chunk.with_visibility (sinkVis chunk hv s) := rfl

theorem visibleRows_some (rows : List Row) (vis : List Bool) :
    DataChunk.visibleRows ⟨rows, some vis⟩ = filterVis rows vis := rfl

theorem with_visibility_visAt (c : DataChunk) (vis : List Bool) (i : Nat) :
    (c.with_visibility vis).visAt i = vis.getD i false := rfl

theorem generate_hash_values_length (hash : Row → Nat) (chunk : DataChunk)
    (info : ConsistentHashInfo) :
    (generate_hash_values hash chunk info).length = chunk.rows.length := by
  simp [generate_hash_values, get_hash_values]

end RisingWave


namespace RisingWave

theorem sinkVis_getD (chunk : DataChunk) (hv : List Nat) (s i h : Nat)
    (hh : hv.get? i = some h) (hlen : hv.length = chunk.rows.length) :
    (sinkVis chunk hv s).getD i false = ((h == s) && chunk.visAt i) := by
  have hi : i < hv.length := by
    by_contra hlt
    rw [List.get?_eq_none.mpr (by omega)] at hh
    cases hh
  unfold sinkVis DataChunk.visAt
  cases hvst : chunk.visibility with
  | none =>
    dsimp only
    rw [List.getD_eq_get?, List.get?_map, hh]
    have hr : i < chunk.rows.length := hlen ▸ hi
    simp [hr]
  | some vis =>
    dsimp only
    rw [List.getD_eq_get?, List.get?_zipWith', List.get?_map, hh]
    by_cases hvlen : i < vis.length
    · obtain ⟨v, hvv⟩ : ∃ v, vis.get? i = some v := by
        cases hq : vis.get? i with
        | none =>
          rw [List.get?_eq_none] at hq
          omega
        | some v => exact ⟨v, rfl⟩
      rw [hvv, List.getD_eq_get?, hvv]
      simp
    · rw [List.get?_eq_none.mpr (by omega), List.getD_eq_get?,
        List.get?_eq_none.mpr (by omega)]
      simp

theorem sinkVis_getD_ge (chunk : DataChunk) (hv : List Nat) (s i : Nat)
    (hi : hv.length ≤ i) : (sinkVis chunk hv s).getD i false = false := by
  unfold sinkVis
  cases chunk.visibility with
  | none =>
    dsimp only
    rw [List.getD_eq_get?, List.get?_eq_none.mpr (by simpa using hi)]
    rfl
  | some vis =>
    dsimp only
    rw [List.getD_eq_get?, List.get?_eq_none.mpr ?hge]
    · rfl
    case hge =>
      rw [List.length_zipWith, List.length_map]
      omega

theorem generate_new_data_chunks_get? (chunk : DataChunk) (N : Nat) (hv : List Nat)
    (s : Nat) (c : DataChunk) :
    (generate_new_data_chunks chunk N hv).get? s = some c ↔
      s < N ∧ c = chunk.with_visibility (sinkVis chunk hv s) := by
  rw [generate_new_data_chunks_eq, List.get?_map]
  constructor
  · intro hc
    cases hr : (List.range N).get? s with
    | none =>
      rw [hr] at hc
      cases hc
    | some v =>
      have hs : s < N := by
        have := List.get?_eq_some.mp hr
        obtain ⟨hlt, _⟩ := this
        simpa using hlt
      rw [List.get?_range hs] at hr
      injection hr with hr
      subst hr
      rw [List.get?_range hs] at hc
      injection hc with hc
      exact ⟨hs, hc.symm⟩
  · rintro ⟨hs, rfl⟩
    rw [List.get?_range hs]
    rfl

theorem derived_visAt (chunk : DataChunk) (N : Nat) (hv : List Nat) (s : Nat)
    (c : DataChunk) (hc : (generate_new_data_chunks chunk N hv).get? s = some c)
    (hlen : hv.length = chunk.rows.length) (i h : Nat) (hh : hv.get? i = some h) :
    c.visAt i = ((h == s) && chunk.visAt i) := by
  obtain ⟨hs, rfl⟩ := (generate_new_data_chunks_get? chunk N hv s c).mp hc
  rw [with_visibility_visAt]
  exact sinkVis_getD chunk hv s i h hh hlen

theorem derived_visAt_ge (chunk : DataChunk) (N : Nat) (hv : List Nat) (s : Nat)
    (c : DataChunk) (hc : (generate_new_data_chunks chunk N hv).get? s = some c)
    (i : Nat) (hi : hv.length ≤ i) : c.visAt i = false := by
  obtain ⟨hs, rfl⟩ := (generate_new_data_chunks_get? chunk N hv s c).mp hc
  rw [with_visibility_visAt]
  exact sinkVis_getD_ge chunk hv s i hi

end RisingWave


namespace RisingWave

theorem listSumMapAdd {α M : Type _} [AddCommMonoid M] (l : List α) (f g : α → M) :
    (l.map fun a => f a + g a).sum = (l.map f).sum + (l.map g).sum := by
  induction l with
  | nil => simp
  | cons a rest ih =>
    simp only [List.map_cons, List.sum_cons, ih]
    exact add_add_add_comm _ _ _ _

theorem listSumRangeIte {M : Type _} [AddCommMonoid M] (h N : Nat) (m : M) :
    ((List.range N).map fun s => if h = s then m else 0).sum
      = if h < N then m else 0 := by
  induction N with
  | zero => simp
  | succ n ih =>
    rw [List.range_succ, List.map_append, List.sum_append, ih]
    simp only [List.map_cons, List.map_nil, List.sum_cons, List.sum_nil]
    by_cases hh : h = n
    · subst hh
      rw [if_neg (lt_irrefl h), if_pos rfl, if_pos (Nat.lt_succ_self h)]
      simp
    · rw [if_neg hh]
      by_cases hlt : h < n
      · rw [if_pos hlt, if_pos (Nat.lt_succ_of_lt hlt)]
        simp
      · rw [if_neg hlt, if_neg (by omega)]
        simp

theorem filterVis_cons (r : Row) (rs : List Row) (x : Bool) (xs : List Bool) :
    filterVis (r :: rs) (x :: xs) = (if x then [r] else []) ++ filterVis rs xs := by
  cases x <;> simp [filterVis]

theorem zipWith_replicate_true (hv : List Nat) (s : Nat) :
    List.zipWith (fun h b => (h == s) && b) hv (List.replicate hv.length true)
      = hv.map fun h => h == s := by
  induction hv with
  | nil => rfl
  | cons h hs ih => simp [List.replicate_succ, ih]

theorem filterVis_replicate_true (rows : List Row) :
    filterVis rows (List.replicate rows.length true) = rows := by
  induction rows with
  | nil => rfl
  | cons r rs ih =>
    rw [List.length_cons, List.replicate_succ, filterVis_cons, ih]
    simp

/-- The heart of exchange fidelity: splitting a visible-row list over the
sinks `0 .. N-1` by the per-row sink values partitions it — the multisets
over all sinks sum to the input's visible multiset, provided every sink
value is below `N`. -/
theorem shuffle_partition (rows : List Row) (hv : List Nat) (vis : List Bool)
    (N : Nat) (hlen1 : hv.length = rows.length) (hlen2 : vis.length = rows.length)
    (hlt : ∀ h ∈ hv, h < N) :
    ((List.range N).map fun s =>
        ((filterVis rows (List.zipWith (fun h b => (h == s) && b) hv vis)
          : List Row) : Multiset Row)).sum
      = (filterVis rows vis : Multiset Row) := by
  induction rows generalizing hv vis with
  | nil =>
    cases hv with
    | cons h hs => simp at hlen1
    | nil =>
      cases vis with
      | cons b bs => simp at hlen2
      | nil => simp [filterVis]
  | cons r rs ih =>
    cases hv with
    | nil => simp at hlen1
    | cons h hs =>
      cases vis with
      | nil => simp at hlen2
      | cons b bs =>
        have hlt_h : h < N := hlt h (List.mem_cons_self h hs)
        have hlt2 : ∀ x ∈ hs, x < N := fun x hx => hlt x (List.mem_cons_of_mem _ hx)
        have hl1 : hs.length = rs.length := by simpa using hlen1
        have hl2 : bs.length = rs.length := by simpa using hlen2
        have hfun : ∀ s : Nat,
            ((filterVis (r :: rs)
                (List.zipWith (fun h2 b2 => (h2 == s) && b2) (h :: hs) (b :: bs))
              : List Row) : Multiset Row)
              = (if h = s then (if b then ({r} : Multiset Row) else 0) else 0)
                + ↑(filterVis rs (List.zipWith (fun h2 b2 => (h2 == s) && b2) hs bs)) := by
          intro s
          rw [List.zipWith_cons_cons, filterVis_cons]
          by_cases hhs : h = s
          · by_cases hbb : b = true
            · simp [hhs, hbb]
            · simp only [Bool.not_eq_true] at hbb
              simp [hhs, hbb]
          · have : (h == s) = false := by simpa using hhs
            simp [this, hhs]
        simp only [hfun]
        rw [listSumMapAdd, listSumRangeIte, if_pos hlt_h,
          ih hs bs hl1 hl2 hlt2, filterVis_cons]
        by_cases hbb : b = true
        · simp [hbb]
        · simp only [Bool.not_eq_true] at hbb
          simp [hbb]

end RisingWave


namespace RisingWave

/-- Exchange fidelity at the chunk level: when every per-row sink value is
below the output count, the visible rows of the derived chunks partition the
input's visible rows (as multisets). -/
theorem multisetVisible_gndc (chunk : DataChunk) (N : Nat) (hv : List Nat)
    (hlen : hv.length = chunk.rows.length)
    (hvis : ∀ vis, chunk.visibility = some vis → vis.length = chunk.rows.length)
    (hlt : ∀ h ∈ hv, h < N) :
    multisetVisible (generate_new_data_chunks chunk N hv)
      = (chunk.visibleRows : Multiset Row) := by
  obtain ⟨rows, vist⟩ := chunk
  rw [generate_new_data_chunks_eq]
  unfold multisetVisible
  rw [List.map_map]
  cases vist with
  | none =>
    have hlen2 : hv.length = rows.length := hlen
    have hfun : ∀ s : Nat,
        (((DataChunk.with_visibility ⟨rows, none⟩
            (sinkVis ⟨rows, none⟩ hv s)).visibleRows : List Row) : Multiset Row)
          = ↑(filterVis rows
              (List.zipWith (fun h b => (h == s) && b) hv
                (List.replicate hv.length true))) := by
      intro s
      rw [zipWith_replicate_true]
      rfl
    simp only [Function.comp_def, hfun]
    rw [shuffle_partition rows hv (List.replicate hv.length true) N hlen2
      (by simpa using hlen2) hlt]
    rw [hlen2, filterVis_replicate_true]
    rfl
  | some vis =>
    have hlen2 : hv.length = rows.length := hlen
    have hvl : vis.length = rows.length := hvis vis rfl
    have hfun : ∀ s : Nat,
        (((DataChunk.with_visibility ⟨rows, some vis⟩
            (sinkVis ⟨rows, some vis⟩ hv s)).visibleRows : List Row) : Multiset Row)
          = ↑(filterVis rows
              (List.zipWith (fun h b => (h == s) && b) hv vis)) := by
      intro s
      show ((filterVis rows (List.zipWith (· && ·)
        (hv.map fun h => h == s) vis) : List Row) : Multiset Row) = _
      rw [List.zipWith_map_left]
    simp only [Function.comp_def, hfun]
    rw [shuffle_partition rows hv vis N hlen2 hvl hlt]
    rfl

theorem multisetVisible_filter_card (l : List DataChunk) :
    multisetVisible (l.filter fun c => 0 < c.cardinality) = multisetVisible l := by
  induction l with
  | nil => rfl
  | cons c rest ih =>
    rw [List.filter_cons]
    by_cases hc : 0 < c.cardinality
    · rw [if_pos (by simpa using hc)]
      unfold multisetVisible at ih ⊢
      simp only [List.map_cons, List.sum_cons, ih]
    · rw [if_neg (by simpa using hc)]
      have hnil : c.visibleRows = [] := by
        have : c.visibleRows.length = 0 := by
          unfold DataChunk.cardinality at hc
          omega
        exact List.length_eq_zero.mp this
      unfold multisetVisible at ih ⊢
      simp only [List.map_cons, List.sum_cons, ih, hnil]
      simp

theorem enumFrom_filter_map_snd {α : Type _} (q : α → Bool) (l : List α) :
    ∀ n, ((List.enumFrom n l).filter fun p => q p.2).map Prod.snd = l.filter q := by
  induction l with
  | nil => intro n; rfl
  | cons a rest ih =>
    intro n
    rw [List.enumFrom_cons, List.filter_cons, List.filter_cons]
    by_cases hq : q a
    · simp [hq, ih]
    · simp [hq, ih]

/-- `send_chunk` pushes exactly the derived chunks of positive cardinality,
by sink position. -/
theorem send_chunk_sends_map_snd (hash : Row → Nat) (info : ConsistentHashInfo)
    (chunk : DataChunk) :
    (send_chunk_sends hash info chunk).map Prod.snd
      = (generate_new_data_chunks chunk (output_count info)
          (generate_hash_values hash chunk info)).filter fun c => 0 < c.cardinality := by
  unfold send_chunk_sends List.enum
  dsimp only
  exact enumFrom_filter_map_snd (fun c => decide (0 < c.cardinality))
    (generate_new_data_chunks chunk (output_count info)
      (generate_hash_values hash chunk info)) 0

end RisingWave


namespace RisingWave

/-- **C1**, amended — Exchange fidelity for the consistent-hash shuffle
sender, under the two sanity conditions the code relies on: the visibility
bitmap (when present) has one bit per row, and every per-row mapped value
`hash_values[i]` is below `output_count` (i.e. the vmap's distinct values are
exactly `0 .. N-1`).  Then: the sender derives exactly `N = output_count`
chunks sharing the input's columnar data; each derived chunk's visibility at
row `i` is `hash_values[i] == sink_id` intersected with the input's original
visibility; no row is visible in more than one derived chunk; the multiset of
visible rows across the `N` derived chunks equals the input's visible
multiset; and so does the multiset across the chunks `send_chunk` actually
pushes (it drops only cardinality-0 chunks). -/
theorem exchange_fidelity (hash : Row → Nat) (info : ConsistentHashInfo)
    (chunk : DataChunk)
    (hvis : ∀ vis, chunk.visibility = some vis → vis.length = chunk.rows.length)
    (hlt : ∀ h ∈ generate_hash_values hash chunk info, h < output_count info) :
    (generate_new_data_chunks chunk (output_count info)
        (generate_hash_values hash chunk info)).length = output_count info ∧
    (∀ s c, (generate_new_data_chunks chunk (output_count info)
          (generate_hash_values hash chunk info)).get? s = some c →
        c.rows = chunk.rows ∧
        ∀ i h, (generate_hash_values hash chunk info).get? i = some h →
          c.visAt i = ((h == s) && chunk.visAt i)) ∧
    (∀ i s₁ s₂ c₁ c₂,
        (generate_new_data_chunks chunk (output_count info)
          (generate_hash_values hash chunk info)).get? s₁ = some c₁ →
        (generate_new_data_chunks chunk (output_count info)
          (generate_hash_values hash chunk info)).get? s₂ = some c₂ →
        c₁.visAt i = true → c₂.visAt i = true → s₁ = s₂) ∧
    multisetVisible (generate_new_data_chunks chunk (output_count info)
        (generate_hash_values hash chunk info))
      = (chunk.visibleRows : Multiset Row) ∧
    multisetVisible ((send_chunk_sends hash info chunk).map Prod.snd)
      = (chunk.visibleRows : Multiset Row) := by
  have hlen := generate_hash_values_length hash chunk info
  refine ⟨?_, ?_, ?_, ?_, ?_⟩
  · rw [generate_new_data_chunks_eq]
    simp
  · intro s c hc
    constructor
    · obtain ⟨hs, rfl⟩ := (generate_new_data_chunks_get? _ _ _ _ _).mp hc
      rfl
    · intro i h hh
      exact derived_visAt _ _ _ _ _ hc hlen i h hh
  · intro i s₁ s₂ c₁ c₂ h₁ h₂ hv₁ hv₂
    by_cases hi : i < (generate_hash_values hash chunk info).length
    · obtain ⟨h, hh⟩ : ∃ h, (generate_hash_values hash chunk info).get? i = some h := by
        cases hq : (generate_hash_values hash chunk info).get? i with
        | none =>
          rw [List.get?_eq_none] at hq
          omega
        | some h => exact ⟨h, rfl⟩
      have e₁ := derived_visAt _ _ _ _ _ h₁ hlen i h hh
      have e₂ := derived_visAt _ _ _ _ _ h₂ hlen i h hh
      rw [hv₁] at e₁
      rw [hv₂] at e₂
      have hs₁ : h = s₁ := by
        have he := e₁.symm
        simp only [Bool.and_eq_true, beq_iff_eq] at he
        exact he.1
      have hs₂ : h = s₂ := by
        have he := e₂.symm
        simp only [Bool.and_eq_true, beq_iff_eq] at he
        exact he.1
      omega
    · have hfalse := derived_visAt_ge _ _ _ _ _ h₁ i (by omega)
      rw [hv₁] at hfalse
      cases hfalse
  · exact multisetVisible_gndc chunk _ _ hlen hvis hlt
  · rw [send_chunk_sends_map_snd, multisetVisible_filter_card]
    exact multisetVisible_gndc chunk _ _ hlen hvis hlt

/-- **C1**, counterexample — The claim as stated (without any condition on
the vmap) is false: with `vmap = [0, 2]` the value set `{0, 2}` is
non-contiguous, `output_count = 2`, and the single visible row of the input
hashes to vnode 1 and maps to value `2`, matching neither sink `0` nor sink
`1`; the multiset of visible rows across the derived chunks is empty while
the input has one visible row. -/
theorem exchange_fidelity_counterexample :
    ¬ (multisetVisible (generate_new_data_chunks
          (⟨[[1]], none⟩ : DataChunk)
          (output_count ⟨[0], [0, 2]⟩)
          (generate_hash_values (fun r => (r.headD 0).natAbs)
            ⟨[[1]], none⟩ ⟨[0], [0, 2]⟩))
        = ((⟨[[1]], none⟩ : DataChunk).visibleRows : Multiset Row)) := by
  decide

/-- Witness for `exchange_fidelity` on a two-row chunk with the contiguous
vmap `[0, 1]`. -/
theorem exchange_fidelity_witness :
    (generate_new_data_chunks (⟨[[0], [1]], none⟩ : DataChunk)
        (output_count ⟨[0], [0, 1]⟩)
        (generate_hash_values (fun r => (r.headD 0).natAbs)
          ⟨[[0], [1]], none⟩ ⟨[0], [0, 1]⟩)).length = output_count ⟨[0], [0, 1]⟩ ∧
    (∀ s c, (generate_new_data_chunks (⟨[[0], [1]], none⟩ : DataChunk)
          (output_count ⟨[0], [0, 1]⟩)
          (generate_hash_values (fun r => (r.headD 0).natAbs)
            ⟨[[0], [1]], none⟩ ⟨[0], [0, 1]⟩)).get? s = some c →
        c.rows = (⟨[[0], [1]], none⟩ : DataChunk).rows ∧
        ∀ i h, (generate_hash_values (fun r => (r.headD 0).natAbs)
            ⟨[[0], [1]], none⟩ ⟨[0], [0, 1]⟩).get? i = some h →
          c.visAt i = ((h == s) && (⟨[[0], [1]], none⟩ : DataChunk).visAt i)) ∧
    (∀ i s₁ s₂ c₁ c₂,
        (generate_new_data_chunks (⟨[[0], [1]], none⟩ : DataChunk)
          (output_count ⟨[0], [0, 1]⟩)
          (generate_hash_values (fun r => (r.headD 0).natAbs)
            ⟨[[0], [1]], none⟩ ⟨[0], [0, 1]⟩)).get? s₁ = some c₁ →
        (generate_new_data_chunks (⟨[[0], [1]], none⟩ : DataChunk)
          (output_count ⟨[0], [0, 1]⟩)
          (generate_hash_values (fun r => (r.headD 0).natAbs)
            ⟨[[0], [1]], none⟩ ⟨[0], [0, 1]⟩)).get? s₂ = some c₂ →
        c₁.visAt i = true → c₂.visAt i = true → s₁ = s₂) ∧
    multisetVisible (generate_new_data_chunks (⟨[[0], [1]], none⟩ : DataChunk)
        (output_count ⟨[0], [0, 1]⟩)
        (generate_hash_values (fun r => (r.headD 0).natAbs)
          ⟨[[0], [1]], none⟩ ⟨[0], [0, 1]⟩))
      = ((⟨[[0], [1]], none⟩ : DataChunk).visibleRows : Multiset Row) ∧
    multisetVisible ((send_chunk_sends (fun r => (r.headD 0).natAbs)
        ⟨[0], [0, 1]⟩ ⟨[[0], [1]], none⟩).map Prod.snd)
      = ((⟨[[0], [1]], none⟩ : DataChunk).visibleRows : Multiset Row) :=
  exchange_fidelity (fun r => (r.headD 0).natAbs) ⟨[0], [0, 1]⟩ ⟨[[0], [1]], none⟩
    (fun vis h => by cases h) (by decide)

/-- **C9**, amended — `send_chunk` indexes the sender vector only with the
enumerate positions of the derived chunks, all strictly below
`output_count` — the length of the sender vector — so the indexing is
in-bounds for every vmap, contiguous or not, and no panic occurs.  What a
non-contiguous vmap actually causes is silent row loss: a row whose mapped
value is at least `output_count` matches no sink id, is invisible in every
derived chunk, and is therefore never sent. -/
theorem send_chunk_inbounds (hash : Row → Nat) (info : ConsistentHashInfo)
    (chunk : DataChunk) :
    (∀ p ∈ send_chunk_sends hash info chunk, p.1 < output_count info) ∧
    (∀ i h, (generate_hash_values hash chunk info).get? i = some h →
      output_count info ≤ h →
      ∀ s c, (generate_new_data_chunks chunk (output_count info)
          (generate_hash_values hash chunk info)).get? s = some c →
        c.visAt i = false) := by
  constructor
  · intro p hp
    unfold send_chunk_sends at hp
    dsimp only at hp
    have hmem := (List.mem_filter.mp hp).1
    rw [List.mem_enum_iff_get?] at hmem
    obtain ⟨hlt, -⟩ := List.get?_eq_some.mp hmem
    rw [generate_new_data_chunks_eq] at hlt
    simpa using hlt
  · intro i h hh hge s c hc
    have e := derived_visAt _ _ _ _ _ hc
      (generate_hash_values_length hash chunk info) i h hh
    obtain ⟨hs, -⟩ := (generate_new_data_chunks_get? _ _ _ _ _).mp hc
    rw [e]
    have hne : (h == s) = false := by
      simp only [beq_eq_false_iff_ne, ne_eq]
      omega
    rw [hne, Bool.false_and]

/-- **C9**, counterexample — The claim as stated is false: at the very input
it predicts to panic (`vmap = [0, 2]`, a row mapping to the larger value
`2`), `send_chunk` uses **no** sender index at all — the row matches neither
sink, both derived chunks are empty and are filtered out before indexing —
so no out-of-bounds access and no panic occurs. -/
theorem send_chunk_oob_counterexample :
    generate_hash_values (fun r => (r.headD 0).natAbs)
        (⟨[[1]], none⟩ : DataChunk) ⟨[0], [0, 2]⟩ = [2] ∧
    output_count ⟨[0], [0, 2]⟩ = 2 ∧
    send_chunk_sends (fun r => (r.headD 0).natAbs) ⟨[0], [0, 2]⟩ ⟨[[1]], none⟩ = [] ∧
    ¬ ∃ p ∈ send_chunk_sends (fun r => (r.headD 0).natAbs) ⟨[0], [0, 2]⟩
        ⟨[[1]], none⟩, output_count ⟨[0], [0, 2]⟩ ≤ p.1 := by
  decide

/-- Witness for `send_chunk_inbounds` at the non-contiguous vmap `[0, 2]`. -/
theorem send_chunk_inbounds_witness :
    (∀ p ∈ send_chunk_sends (fun r => (r.headD 0).natAbs) ⟨[0], [0, 2]⟩
        ⟨[[1]], none⟩, p.1 < output_count ⟨[0], [0, 2]⟩) ∧
    (∀ i h, (generate_hash_values (fun r => (r.headD 0).natAbs)
        (⟨[[1]], none⟩ : DataChunk) ⟨[0], [0, 2]⟩).get? i = some h →
      output_count ⟨[0], [0, 2]⟩ ≤ h →
      ∀ s c, (generate_new_data_chunks (⟨[[1]], none⟩ : DataChunk)
          (output_count ⟨[0], [0, 2]⟩)
          (generate_hash_values (fun r => (r.headD 0).natAbs)
            ⟨[[1]], none⟩ ⟨[0], [0, 2]⟩)).get? s = some c →
        c.visAt i = false) :=
  send_chunk_inbounds (fun r => (r.headD 0).natAbs) ⟨[0], [0, 2]⟩ ⟨[[1]], none⟩

end RisingWave
